import Mathlib

/-!
Verification of the field-level encryption and duplicate-detection subsystem
of the AhaGuru student-registration application.

The subsystem under verification lives in `core/students/encryption.py`
(`get_encryption_key`, `encrypt_data`, `decrypt_data`) and
`core/students/forms.py` (`StudentRegistrationForm.clean_mobile`,
`clean_email`, `clean`).  The Python code is embedded shallowly below:

* `settings.ENCRYPTION_KEY` is an `Option String` (`none` = attribute absent);
  Python truthiness of the configured string is an emptiness test.
* `Fernet.generate_key()` draws fresh random key material on every call; the
  draw is made explicit as a `fresh : Nat` parameter supplied at each call
  site, so two calls of `get_encryption_key` receive their own draws.
* The Fernet authenticated-encryption primitive comes from the external
  `cryptography` library, not from this repository.  It is modelled from the
  spec as an ideal authenticated scheme (see `fernetEncrypt` below).
* Exceptions (`ValueError` from `decrypt_data`, `forms.ValidationError` from
  the form methods) become `Except String` / `Option String` results.
* The database queryset `Student.objects.all()` is a `List StudentRec` of
  borrowed records; the scans walk it in order.
-/

/-- Python whitespace characters as recognised by `str.strip()`
(the ASCII ones; the embedded strings are ASCII). -/
def pyIsSpace (c : Char) : Bool :=
  c = ' ' || c = '\t' || c = '\n' || c = '\x0d' || c = '\x0b' || c = '\x0c'

/-- Embedding of Python `str.strip()`: drop leading and trailing whitespace. -/
def pyStrip (s : String) : String :=
  String.mk (((s.data.dropWhile (fun c => pyIsSpace c)).reverse.dropWhile
    (fun c => pyIsSpace c)).reverse)

/-- Embedding of Python `str.lower()` (ASCII case folding; the embedded
strings are ASCII). -/
def pyLower (s : String) : String :=
  String.mk (s.data.map Char.toLower)

/-- Embedding of `''.join(filter(str.isdigit, s))` from
`core/students/forms.py`: keep only the decimal digits of `s`. -/
def digitsOnly (s : String) : String :=
  String.mk (s.data.filter (fun c => c.isDigit))

/-- The normalisation `forms.py` applies to an email before hashing:
`email.lower().strip()`. -/
def normEmail (s : String) : String :=
  pyStrip (pyLower s)

/-- UTF-8 encoding `data.encode('utf-8')`, modelled at the code-point level
(a `List Nat` of scalar values; the encoding is injective, which is all the
claims use). -/
def strToBytes (s : String) : List Nat :=
  s.data.map Char.toNat

/-- UTF-8 decoding `bytes.decode('utf-8')`, inverse of `strToBytes` on its
image. -/
def bytesToStr (l : List Nat) : String :=
  String.mk (l.map Char.ofNat)

/-- Deterministic numeric rendering of the configured key string
(`settings.ENCRYPTION_KEY.encode()`): key material is opaque, only
equality of keys matters to the claims. -/
def strToKey (s : String) : Nat :=
  s.data.foldl (fun a c => a * 4294967296 + c.toNat + 1) 1

/-- Duplicate every element of a list.  Used by the ideal Fernet model to
make every single-position change of a token detectable. -/
def dup : List Nat → List Nat
  | [] => []
  | a :: as => a :: a :: dup as

/-- Inverse of `dup`: succeeds exactly on lists in the image of `dup`. -/
def undup : List Nat → Option (List Nat)
  | [] => some []
  | [_] => none
  | a :: b :: rest => if a = b then (undup rest).map (fun l => a :: l) else none

/-- Modelled from the spec: the `cryptography` library's Fernet primitive is
external to the repository.  Section 6 of the spec leaves the blob's
representation opaque and scheme-defined, and sections 3 and 4.2 require an
authenticated scheme: same-key decryption recovers the plaintext exactly,
decryption under a different key fails, and any tampering is detected.  The
model realises this ideally: a token is the duplicated injective encoding of
(key, random IV, length, payload); `fernetDecrypt` recovers the payload only
from an untampered token made under the same key. -/
def fernetEncrypt (key iv : Nat) (pt : List Nat) : List Nat :=
  dup (key :: iv :: pt.length :: pt)

/-- Modelled from the spec: ideal Fernet decryption (see `fernetEncrypt`).
Returns `none` when the blob is not an untampered token under `key`. -/
def fernetDecrypt (key : Nat) (blob : List Nat) : Option (List Nat) :=
  match undup blob with
  | some (k :: _iv :: n :: rest) =>
      if k = key ∧ rest.length = n then some rest else none
  | _ => none

/-- Embedding of `get_encryption_key` (`core/students/encryption.py`).
`encryption_key` is `settings.ENCRYPTION_KEY` (`none` when the attribute is
absent); `fresh` is the key material `Fernet.generate_key()` would draw at
this call.  Returns the resolved key together with a flag recording whether
the development-only warning was printed. -/
def get_encryption_key (encryption_key : Option String) (fresh : Nat) :
    Nat × Bool :=
  match encryption_key with
  | some s => if s = "" then (fresh, true) else (strToKey s, false)
  | none => (fresh, true)

/-- Embedding of `encrypt_data` (`core/students/encryption.py`): empty data
maps to the empty blob, otherwise the key is resolved via
`get_encryption_key` and the UTF-8 bytes are Fernet-encrypted (`iv` is the
randomness the Fernet token draws). -/
def encrypt_data (encryption_key : Option String) (fresh iv : Nat)
    (data : String) : List Nat :=
  if data = "" then []
  else fernetEncrypt (get_encryption_key encryption_key fresh).fst iv
    (strToBytes data)

/-- Embedding of `decrypt_data` (`core/students/encryption.py`): empty blob
maps to the empty string; otherwise the key is resolved via
`get_encryption_key` and Fernet decryption is attempted, any failure being
re-raised as `ValueError("Decryption failed: ...")`. -/
def decrypt_data (encryption_key : Option String) (fresh : Nat)
    (blob : List Nat) : Except String String :=
  if blob = [] then .ok ""
  else
    match fernetDecrypt (get_encryption_key encryption_key fresh).fst blob with
    | some pt => .ok (bytesToStr pt)
    | none => .error "Decryption failed"

/-- Modelled from the spec: `hash_for_comparison` is imported from
`.encryption` by `forms.py` and `tests.py` but its definition is absent from
the source tree.  Per spec section 8 the digest equates `"a@B.com "` with
`"a@b.com"` and `"(987) 654-3210"` with `"9876543210"`, so the hash itself
case-folds and drops whitespace and the punctuation `(`, `)`, `-`; this is
that canonical form. -/
def canonicalForHash (s : String) : String :=
  String.mk ((pyLower s).data.filter
    (fun c => !(pyIsSpace c || c = '(' || c = ')' || c = '-')))

/-- Modelled from the spec: the comparison digest itself.  Spec section 4.3
requires a deterministic digest, independent of the encryption key, with
distinct outputs for distinct (canonicalised) inputs with overwhelming
probability; the ideal model takes collision-freeness as exact, so the
digest is the injective image of the canonical form. -/
def hash_for_comparison (s : String) : String :=
  canonicalForHash s

/-- A borrowed candidate record from the `student` table: the encrypted
email and mobile blobs of one existing student
(`Student` in `core/students/models.py`). -/
structure StudentRec where
  id : Nat
  email : List Nat
  mobile : List Nat
deriving DecidableEq, Repr

/-- The `ValidationError` messages raised by `StudentRegistrationForm`. -/
def mobileLengthMsg : String :=
  "Mobile number must contain at least 10 digits."

/-- Message of the mobile-duplicate `ValidationError`. -/
def mobileDupMsg : String :=
  "This mobile number is already registered. Please use a different mobile number."

/-- Message of the email-duplicate `ValidationError`. -/
def emailDupMsg : String :=
  "This email address is already registered. Please use a different email address or contact support if you believe this is an error."

/-- Message of the combined-duplicate `ValidationError` raised by `clean`. -/
def combinedDupMsg : String :=
  "A registration with this email and mobile number combination already exists. Please use different contact information or contact support."

/-- The per-record loop of `clean_mobile`: decrypt each candidate's mobile
(skipping records whose decryption raises), hash its digits-only form and
compare with the incoming hash; the first match raises the duplicate
message. -/
def scanMobile (encryption_key : Option String) (fresh : Nat)
    (mobileHash : String) : List StudentRec → Option String
  | [] => none
  | st :: rest =>
    match decrypt_data encryption_key fresh st.mobile with
    | .error _ => scanMobile encryption_key fresh mobileHash rest
    | .ok existingMobile =>
      if hash_for_comparison (digitsOnly existingMobile) = mobileHash then
        some mobileDupMsg
      else scanMobile encryption_key fresh mobileHash rest

/-- The per-record loop of `clean_email`: decrypt each candidate's email
(skipping records whose decryption raises), hash its lower-cased stripped
form and compare with the incoming hash; the first match raises the
duplicate message. -/
def scanEmail (encryption_key : Option String) (fresh : Nat)
    (emailHash : String) : List StudentRec → Option String
  | [] => none
  | st :: rest =>
    match decrypt_data encryption_key fresh st.email with
    | .error _ => scanEmail encryption_key fresh emailHash rest
    | .ok existingEmail =>
      if hash_for_comparison (normEmail existingEmail) = emailHash then
        some emailDupMsg
      else scanEmail encryption_key fresh emailHash rest

/-- The per-record loop of `clean`: decrypt both fields of each candidate
(skipping records where either decryption raises); raise the combined
message on the first record whose email hash AND mobile hash both match the
incoming hashes. -/
def scanCombined (encryption_key : Option String) (fresh : Nat)
    (emailHash mobileHash : String) : List StudentRec → Option String
  | [] => none
  | st :: rest =>
    match decrypt_data encryption_key fresh st.email,
          decrypt_data encryption_key fresh st.mobile with
    | .ok e, .ok m =>
      if hash_for_comparison (normEmail e) = emailHash ∧
         hash_for_comparison (digitsOnly m) = mobileHash then
        some combinedDupMsg
      else scanCombined encryption_key fresh emailHash mobileHash rest
    | _, _ => scanCombined encryption_key fresh emailHash mobileHash rest

/-- Embedding of `StudentRegistrationForm.clean_mobile`
(`core/students/forms.py` lines 49-85): on a truthy mobile, reject when its
digits-only form has fewer than 10 digits, otherwise scan all existing
students for a hash match; `ValidationError` becomes `.error msg`. -/
def clean_mobile (encryption_key : Option String) (fresh : Nat)
    (students : List StudentRec) (mobile : String) : Except String String :=
  if mobile = "" then .ok mobile
  else
    let digits := digitsOnly mobile
    if digits.length < 10 then .error mobileLengthMsg
    else
      match scanMobile encryption_key fresh (hash_for_comparison digits)
          students with
      | some msg => .error msg
      | none => .ok mobile

/-- Embedding of `StudentRegistrationForm.clean_email`
(`core/students/forms.py` lines 87-122): on a truthy email, scan all
existing students for a hash match on the lower-cased stripped form; on
success the normalised email is returned. -/
def clean_email (encryption_key : Option String) (fresh : Nat)
    (students : List StudentRec) (email : String) : Except String String :=
  if email = "" then .ok email
  else
    match scanEmail encryption_key fresh (hash_for_comparison (normEmail email))
        students with
    | some msg => .error msg
    | none => .ok (normEmail email)

/-- Embedding of `StudentRegistrationForm.clean`
(`core/students/forms.py` lines 124-164): given the field values surviving
field cleaning (`cleaned_data.get`, `none` when the field clean raised),
run the combined scan only when both are present and truthy; the result is
the non-field `ValidationError`, if any. -/
def clean_step (encryption_key : Option String) (fresh : Nat)
    (students : List StudentRec) (email mobile : Option String) :
    Option String :=
  match email, mobile with
  | some e, some m =>
    if e ≠ "" ∧ m ≠ "" then
      scanCombined encryption_key fresh (hash_for_comparison (normEmail e))
        (hash_for_comparison (digitsOnly m)) students
    else none
  | _, _ => none

/-- Outcome of running the form's validation pipeline on one incoming
(email, mobile) pair: the per-field errors, the non-field error from
`clean`, and the cleaned values that survived. -/
structure FormOutcome where
  emailError : Option String
  mobileError : Option String
  nonFieldError : Option String
  cleanedEmail : Option String
  cleanedMobile : Option String
deriving DecidableEq, Repr

/-- Embedding of the Django form pipeline on the two encrypted fields:
`_clean_fields` runs `clean_email` and `clean_mobile` independently (an
error removes the value from `cleaned_data`), then `_clean_form` runs
`clean` on whatever survived. -/
def runForm (encryption_key : Option String) (fresh : Nat)
    (students : List StudentRec) (email mobile : String) : FormOutcome :=
  let er := clean_email encryption_key fresh students email
  let mr := clean_mobile encryption_key fresh students mobile
  let ce : Option String := match er with | .ok v => some v | .error _ => none
  let cm : Option String := match mr with | .ok v => some v | .error _ => none
  { emailError := match er with | .error m => some m | .ok _ => none
    mobileError := match mr with | .error m => some m | .ok _ => none
    nonFieldError := clean_step encryption_key fresh students ce cm
    cleanedEmail := ce
    cleanedMobile := cm }

/-- The form rejects the registration when any validation error is
present. -/
def formRejects (o : FormOutcome) : Bool :=
  o.emailError.isSome || o.mobileError.isSome || o.nonFieldError.isSome

deriving instance DecidableEq for Except

/-- State-threading variant of `scanMobile` for the frame property: the scan
borrows the candidate records and hands the database back alongside its
verdict.  Mirrors the loop of `clean_mobile`, which only reads
`student.mobile` and never assigns or saves. -/
def scanMobileDB (encryption_key : Option String) (fresh : Nat)
    (mobileHash : String) : List StudentRec → Option String × List StudentRec
  | [] => (none, [])
  | st :: rest =>
    match decrypt_data encryption_key fresh st.mobile with
    | .error _ =>
      let r := scanMobileDB encryption_key fresh mobileHash rest
      (r.fst, st :: r.snd)
    | .ok existingMobile =>
      if hash_for_comparison (digitsOnly existingMobile) = mobileHash then
        (some mobileDupMsg, st :: rest)
      else
        let r := scanMobileDB encryption_key fresh mobileHash rest
        (r.fst, st :: r.snd)

/-- State-threading variant of `scanEmail` (see `scanMobileDB`). -/
def scanEmailDB (encryption_key : Option String) (fresh : Nat)
    (emailHash : String) : List StudentRec → Option String × List StudentRec
  | [] => (none, [])
  | st :: rest =>
    match decrypt_data encryption_key fresh st.email with
    | .error _ =>
      let r := scanEmailDB encryption_key fresh emailHash rest
      (r.fst, st :: r.snd)
    | .ok existingEmail =>
      if hash_for_comparison (normEmail existingEmail) = emailHash then
        (some emailDupMsg, st :: rest)
      else
        let r := scanEmailDB encryption_key fresh emailHash rest
        (r.fst, st :: r.snd)

/-- State-threading variant of `scanCombined` (see `scanMobileDB`). -/
def scanCombinedDB (encryption_key : Option String) (fresh : Nat)
    (emailHash mobileHash : String) :
    List StudentRec → Option String × List StudentRec
  | [] => (none, [])
  | st :: rest =>
    match decrypt_data encryption_key fresh st.email,
          decrypt_data encryption_key fresh st.mobile with
    | .ok e, .ok m =>
      if hash_for_comparison (normEmail e) = emailHash ∧
         hash_for_comparison (digitsOnly m) = mobileHash then
        (some combinedDupMsg, st :: rest)
      else
        let r := scanCombinedDB encryption_key fresh emailHash mobileHash rest
        (r.fst, st :: r.snd)
    | _, _ =>
      let r := scanCombinedDB encryption_key fresh emailHash mobileHash rest
      (r.fst, st :: r.snd)

/-- `clean_email` with the borrowed database threaded through. -/
def clean_email_db (encryption_key : Option String) (fresh : Nat)
    (students : List StudentRec) (email : String) :
    Except String String × List StudentRec :=
  if email = "" then (.ok email, students)
  else
    let r := scanEmailDB encryption_key fresh
      (hash_for_comparison (normEmail email)) students
    (match r.fst with
     | some msg => .error msg
     | none => .ok (normEmail email), r.snd)

/-- `clean_mobile` with the borrowed database threaded through. -/
def clean_mobile_db (encryption_key : Option String) (fresh : Nat)
    (students : List StudentRec) (mobile : String) :
    Except String String × List StudentRec :=
  if mobile = "" then (.ok mobile, students)
  else
    let digits := digitsOnly mobile
    if digits.length < 10 then (.error mobileLengthMsg, students)
    else
      let r := scanMobileDB encryption_key fresh (hash_for_comparison digits)
        students
      (match r.fst with
       | some msg => .error msg
       | none => .ok mobile, r.snd)

/-- `clean_step` with the borrowed database threaded through. -/
def clean_step_db (encryption_key : Option String) (fresh : Nat)
    (students : List StudentRec) (email mobile : Option String) :
    Option String × List StudentRec :=
  match email, mobile with
  | some e, some m =>
    if e ≠ "" ∧ m ≠ "" then
      scanCombinedDB encryption_key fresh (hash_for_comparison (normEmail e))
        (hash_for_comparison (digitsOnly m)) students
    else (none, students)
  | _, _ => (none, students)

/-- The form pipeline with the candidate database threaded through every
check: each stage receives the records the previous stage handed back. -/
def runFormDB (encryption_key : Option String) (fresh : Nat)
    (students : List StudentRec) (email mobile : String) :
    FormOutcome × List StudentRec :=
  let er := clean_email_db encryption_key fresh students email
  let mr := clean_mobile_db encryption_key fresh er.snd mobile
  let ce : Option String :=
    match er.fst with | .ok v => some v | .error _ => none
  let cm : Option String :=
    match mr.fst with | .ok v => some v | .error _ => none
  let nf := clean_step_db encryption_key fresh mr.snd ce cm
  ({ emailError := match er.fst with | .error m => some m | .ok _ => none
     mobileError := match mr.fst with | .error m => some m | .ok _ => none
     nonFieldError := nf.fst
     cleanedEmail := ce
     cleanedMobile := cm }, nf.snd)

/-- The stored record of the literal duplicate scenario in spec section 8:
one existing student with email existing@test.com and mobile 9876543210,
encrypted under the configured key "k". -/
def demoStudent : StudentRec :=
  { id := 1
    email := encrypt_data (some "k") 0 0 "existing@test.com"
    mobile := encrypt_data (some "k") 0 1 "9876543210" }

/-- The candidate database of the literal duplicate scenario. -/
def demoStudents : List StudentRec := [demoStudent]

theorem undup_dup (l : List Nat) : undup (dup l) = some l := by
  induction l with
  | nil => rfl
  | cons a as ih => simp [dup, undup, ih]

theorem fernetDecrypt_fernetEncrypt (key iv : Nat) (pt : List Nat) :
    fernetDecrypt key (fernetEncrypt key iv pt) = some pt := by
  simp [fernetDecrypt, fernetEncrypt, undup_dup]

theorem fernetDecrypt_wrong_key (key key' iv : Nat) (pt : List Nat)
    (h : key ≠ key') : fernetDecrypt key' (fernetEncrypt key iv pt) = none := by
  simp [fernetDecrypt, fernetEncrypt, undup_dup, h]

theorem bytesToStr_strToBytes (s : String) : bytesToStr (strToBytes s) = s := by
  show String.mk (List.map Char.ofNat (List.map Char.toNat s.data)) = s
  rw [List.map_map]
  have : (Char.ofNat ∘ Char.toNat) = id := by
    funext c
    exact Char.ofNat_toNat c
  rw [this, List.map_id]

theorem encrypt_data_ne_nil (ek : Option String) (f iv : Nat) (s : String)
    (hs : s ≠ "") : encrypt_data ek f iv s ≠ [] := by
  simp [encrypt_data, hs, fernetEncrypt, dup]

theorem decrypt_data_encrypt_data (ek ek' : Option String) (f1 f2 iv : Nat)
    (s : String)
    (hkey : (get_encryption_key ek' f2).fst = (get_encryption_key ek f1).fst) :
    decrypt_data ek' f2 (encrypt_data ek f1 iv s) = .ok s := by
  by_cases hs : s = ""
  · subst hs
    simp [encrypt_data, decrypt_data]
  · rw [decrypt_data, if_neg (encrypt_data_ne_nil ek f1 iv s hs)]
    rw [encrypt_data, if_neg hs, hkey, fernetDecrypt_fernetEncrypt]
    simp [bytesToStr_strToBytes]

theorem decrypt_data_wrong_key (ek ek' : Option String) (f1 f2 iv : Nat)
    (s : String) (hs : s ≠ "")
    (hkey : (get_encryption_key ek f1).fst ≠ (get_encryption_key ek' f2).fst) :
    decrypt_data ek' f2 (encrypt_data ek f1 iv s) = .error "Decryption failed" := by
  rw [decrypt_data, if_neg (encrypt_data_ne_nil ek f1 iv s hs)]
  rw [encrypt_data, if_neg hs, fernetDecrypt_wrong_key _ _ _ _ hkey]

theorem undup_set_dup (l : List Nat) (i v : Nat) (hi : i < (dup l).length)
    (hv : (dup l).getD i 0 ≠ v) : undup ((dup l).set i v) = none := by
  induction l generalizing i with
  | nil => simp [dup] at hi
  | cons a as ih =>
    match i with
    | 0 =>
      have ha : (dup (a :: as)).getD 0 0 = a := rfl
      rw [ha] at hv
      simp [dup, undup, List.set, Ne.symm hv]
    | 1 =>
      have ha : (dup (a :: as)).getD 1 0 = a := rfl
      rw [ha] at hv
      simp [dup, undup, List.set, hv]
    | (n + 2) =>
      have hi2 : n < (dup as).length := by
        simpa [dup] using hi
      have ha : (dup (a :: as)).getD (n + 2) 0 = (dup as).getD n 0 := rfl
      rw [ha] at hv
      simp [dup, undup, List.set, ih n hi2 hv]

theorem eq_dup_of_undup_eq_some (b : List Nat) :
    ∀ l, undup b = some l → b = dup l := by
  induction b using undup.induct with
  | case1 =>
    intro l h
    simp [undup] at h
    subst h
    rfl
  | case2 a =>
    intro l h
    simp [undup] at h
  | case3 a rest ih =>
    intro l h
    simp [undup] at h
    obtain ⟨m, hm, hl⟩ := h
    rw [← hl, dup, ← ih m hm]
  | case4 a c rest hac =>
    intro l h
    simp [undup, hac] at h

theorem fernetDecrypt_ok_shape (key : Nat) (b pt : List Nat)
    (h : fernetDecrypt key b = some pt) : ∃ iv, b = fernetEncrypt key iv pt := by
  unfold fernetDecrypt at h
  cases hu : undup b with
  | none => rw [hu] at h; simp at h
  | some l =>
    rw [hu] at h
    rcases l with _ | ⟨k, _ | ⟨iv, _ | ⟨n, rest⟩⟩⟩
    · simp at h
    · simp at h
    · simp at h
    · have h2 : (if k = key ∧ rest.length = n then some rest else none) =
          some pt := h
      by_cases hc : k = key ∧ rest.length = n
      · rw [if_pos hc] at h2
        obtain ⟨hk, hn⟩ := hc
        obtain ⟨rfl⟩ := h2
        refine ⟨iv, ?_⟩
        rw [eq_dup_of_undup_eq_some b _ hu, fernetEncrypt, hk, hn]
      · rw [if_neg hc] at h2
        simp at h2

theorem decrypt_data_ok_shape (ek : Option String) (f : Nat) (b : List Nat)
    (s : String) (hb : b ≠ []) (h : decrypt_data ek f b = .ok s) :
    ∃ iv pt, b = fernetEncrypt (get_encryption_key ek f).fst iv pt := by
  rw [decrypt_data, if_neg hb] at h
  cases hfd : fernetDecrypt (get_encryption_key ek f).fst b with
  | none => rw [hfd] at h; simp at h
  | some pt =>
    obtain ⟨iv, hiv⟩ := fernetDecrypt_ok_shape _ _ _ hfd
    exact ⟨iv, pt, hiv⟩

theorem decrypt_data_tampered (ek : Option String) (f1 f2 iv : Nat)
    (s : String) (hs : s ≠ "") (i v : Nat)
    (hi : i < (encrypt_data ek f1 iv s).length)
    (hv : (encrypt_data ek f1 iv s).getD i 0 ≠ v) :
    decrypt_data ek f2 ((encrypt_data ek f1 iv s).set i v) =
      .error "Decryption failed" := by
  have hlen : ((encrypt_data ek f1 iv s).set i v).length ≠ 0 := by
    rw [List.length_set]
    exact Nat.not_eq_zero_of_lt hi
  have hnil : (encrypt_data ek f1 iv s).set i v ≠ [] := by
    intro hcon
    rw [hcon] at hlen
    exact hlen rfl
  rw [decrypt_data, if_neg hnil]
  simp only [encrypt_data, if_neg hs, fernetEncrypt] at hi hv ⊢
  rw [fernetDecrypt, undup_set_dup _ _ _ hi hv]

theorem scanMobile_isSome_iff (ek : Option String) (f : Nat) (h : String)
    (l : List StudentRec) :
    (scanMobile ek f h l).isSome = true ↔
      ∃ st ∈ l, ∃ m, decrypt_data ek f st.mobile = .ok m ∧
        hash_for_comparison (digitsOnly m) = h := by
  induction l with
  | nil => simp [scanMobile]
  | cons st rest ih =>
    cases hd : decrypt_data ek f st.mobile with
    | error e => simp [scanMobile, hd, ih, List.exists_mem_cons_iff]
    | ok m =>
      by_cases hh : hash_for_comparison (digitsOnly m) = h
      · simp [scanMobile, hd, hh, List.exists_mem_cons_iff]
      · simp [scanMobile, hd, hh, ih, List.exists_mem_cons_iff]

theorem scanEmail_isSome_iff (ek : Option String) (f : Nat) (h : String)
    (l : List StudentRec) :
    (scanEmail ek f h l).isSome = true ↔
      ∃ st ∈ l, ∃ e, decrypt_data ek f st.email = .ok e ∧
        hash_for_comparison (normEmail e) = h := by
  induction l with
  | nil => simp [scanEmail]
  | cons st rest ih =>
    cases hd : decrypt_data ek f st.email with
    | error e => simp [scanEmail, hd, ih, List.exists_mem_cons_iff]
    | ok e =>
      by_cases hh : hash_for_comparison (normEmail e) = h
      · simp [scanEmail, hd, hh, List.exists_mem_cons_iff]
      · simp [scanEmail, hd, hh, ih, List.exists_mem_cons_iff]

theorem scanCombined_isSome_iff (ek : Option String) (f : Nat)
    (he hm : String) (l : List StudentRec) :
    (scanCombined ek f he hm l).isSome = true ↔
      ∃ st ∈ l, ∃ e m, decrypt_data ek f st.email = .ok e ∧
        decrypt_data ek f st.mobile = .ok m ∧
        hash_for_comparison (normEmail e) = he ∧
        hash_for_comparison (digitsOnly m) = hm := by
  induction l with
  | nil => simp [scanCombined]
  | cons st rest ih =>
    cases hde : decrypt_data ek f st.email with
    | error e => simp [scanCombined, hde, ih, List.exists_mem_cons_iff]
    | ok e =>
      cases hdm : decrypt_data ek f st.mobile with
      | error m => simp [scanCombined, hde, hdm, ih, List.exists_mem_cons_iff]
      | ok m =>
        by_cases hh : hash_for_comparison (normEmail e) = he ∧
            hash_for_comparison (digitsOnly m) = hm
        · simp [scanCombined, hde, hdm, hh, List.exists_mem_cons_iff, hh.1, hh.2]
        · simp only [scanCombined, hde, hdm, if_neg hh]
          rw [ih]
          simp [List.exists_mem_cons_iff, hde, hdm]
          intro h1 h2
          exact absurd ⟨h1, h2⟩ hh

theorem scanMobile_none_or_dup (ek : Option String) (f : Nat) (h : String)
    (l : List StudentRec) :
    scanMobile ek f h l = none ∨ scanMobile ek f h l = some mobileDupMsg := by
  induction l with
  | nil => exact Or.inl rfl
  | cons st rest ih =>
    cases hd : decrypt_data ek f st.mobile with
    | error e => simpa [scanMobile, hd] using ih
    | ok m =>
      by_cases hh : hash_for_comparison (digitsOnly m) = h
      · simp [scanMobile, hd, hh]
      · simpa [scanMobile, hd, hh] using ih

theorem runForm_rejects_iff_scans (ek : Option String) (f : Nat)
    (students : List StudentRec) (email mobile : String)
    (he : email ≠ "") (hm : mobile ≠ "")
    (hlen : 10 ≤ (digitsOnly mobile).length) :
    formRejects (runForm ek f students email mobile) = true ↔
      ((scanEmail ek f (hash_for_comparison (normEmail email)) students).isSome
        = true ∨
       (scanMobile ek f (hash_for_comparison (digitsOnly mobile))
         students).isSome = true) := by
  have hlen' : ¬ (digitsOnly mobile).length < 10 := Nat.not_lt.mpr hlen
  cases hse : scanEmail ek f (hash_for_comparison (normEmail email)) students with
  | some msg =>
    simp [runForm, formRejects, clean_email, he, hse]
  | none =>
    cases hsm : scanMobile ek f (hash_for_comparison (digitsOnly mobile))
        students with
    | some msg =>
      simp [runForm, formRejects, clean_email, clean_mobile, he, hm, hlen',
        hse, hsm]
    | none =>
      have hnf : clean_step ek f students (some (normEmail email))
          (some mobile) = none := by
        rw [clean_step]
        by_cases hg : normEmail email ≠ "" ∧ mobile ≠ ""
        · rw [if_pos hg]
          cases hsc : scanCombined ek f
              (hash_for_comparison (normEmail (normEmail email)))
              (hash_for_comparison (digitsOnly mobile)) students with
          | none => rfl
          | some msg =>
            exfalso
            have hiss : (scanCombined ek f
                (hash_for_comparison (normEmail (normEmail email)))
                (hash_for_comparison (digitsOnly mobile)) students).isSome
                = true := by rw [hsc]; rfl
            obtain ⟨st, hmem, e, m, hde, hdm, hhe, hhm⟩ :=
              (scanCombined_isSome_iff ek f _ _ students).mp hiss
            have : (scanMobile ek f (hash_for_comparison (digitsOnly mobile))
                students).isSome = true :=
              (scanMobile_isSome_iff ek f _ students).mpr
                ⟨st, hmem, m, hdm, hhm⟩
            rw [hsm] at this
            cases this
        · rw [if_neg hg]
      simp [runForm, formRejects, clean_email, clean_mobile, he, hm, hlen',
        hse, hsm, hnf]

theorem scanEmail_none_or_dup (ek : Option String) (f : Nat) (h : String)
    (l : List StudentRec) :
    scanEmail ek f h l = none ∨ scanEmail ek f h l = some emailDupMsg := by
  induction l with
  | nil => exact Or.inl rfl
  | cons st rest ih =>
    cases hd : decrypt_data ek f st.email with
    | error e => simpa [scanEmail, hd] using ih
    | ok e =>
      by_cases hh : hash_for_comparison (normEmail e) = h
      · simp [scanEmail, hd, hh]
      · simpa [scanEmail, hd, hh] using ih

theorem scanCombined_none_or_dup (ek : Option String) (f : Nat)
    (he hm : String) (l : List StudentRec) :
    scanCombined ek f he hm l = none ∨
      scanCombined ek f he hm l = some combinedDupMsg := by
  induction l with
  | nil => exact Or.inl rfl
  | cons st rest ih =>
    cases hde : decrypt_data ek f st.email with
    | error e => simpa [scanCombined, hde] using ih
    | ok e =>
      cases hdm : decrypt_data ek f st.mobile with
      | error m => simpa [scanCombined, hde, hdm] using ih
      | ok m =>
        by_cases hh : hash_for_comparison (normEmail e) = he ∧
            hash_for_comparison (digitsOnly m) = hm
        · simp [scanCombined, hde, hdm, hh]
        · simpa [scanCombined, hde, hdm, hh] using ih

theorem scanMobileDB_spec (ek : Option String) (f : Nat) (h : String)
    (l : List StudentRec) : scanMobileDB ek f h l = (scanMobile ek f h l, l) := by
  induction l with
  | nil => rfl
  | cons st rest ih =>
    cases hd : decrypt_data ek f st.mobile with
    | error e => simp [scanMobileDB, scanMobile, hd, ih]
    | ok m =>
      by_cases hh : hash_for_comparison (digitsOnly m) = h
      · simp [scanMobileDB, scanMobile, hd, hh]
      · simp [scanMobileDB, scanMobile, hd, hh, ih]

theorem scanEmailDB_spec (ek : Option String) (f : Nat) (h : String)
    (l : List StudentRec) : scanEmailDB ek f h l = (scanEmail ek f h l, l) := by
  induction l with
  | nil => rfl
  | cons st rest ih =>
    cases hd : decrypt_data ek f st.email with
    | error e => simp [scanEmailDB, scanEmail, hd, ih]
    | ok e =>
      by_cases hh : hash_for_comparison (normEmail e) = h
      · simp [scanEmailDB, scanEmail, hd, hh]
      · simp [scanEmailDB, scanEmail, hd, hh, ih]

theorem scanCombinedDB_spec (ek : Option String) (f : Nat) (he hm : String)
    (l : List StudentRec) :
    scanCombinedDB ek f he hm l = (scanCombined ek f he hm l, l) := by
  induction l with
  | nil => rfl
  | cons st rest ih =>
    cases hde : decrypt_data ek f st.email with
    | error e => simp [scanCombinedDB, scanCombined, hde, ih]
    | ok e =>
      cases hdm : decrypt_data ek f st.mobile with
      | error m => simp [scanCombinedDB, scanCombined, hde, hdm, ih]
      | ok m =>
        by_cases hh : hash_for_comparison (normEmail e) = he ∧
            hash_for_comparison (digitsOnly m) = hm
        · simp [scanCombinedDB, scanCombined, hde, hdm, hh]
        · simp [scanCombinedDB, scanCombined, hde, hdm, hh, ih]

theorem clean_email_db_spec (ek : Option String) (f : Nat)
    (students : List StudentRec) (email : String) :
    clean_email_db ek f students email =
      (clean_email ek f students email, students) := by
  by_cases he : email = ""
  · simp [clean_email_db, clean_email, he]
  · simp [clean_email_db, clean_email, he, scanEmailDB_spec]

theorem clean_mobile_db_spec (ek : Option String) (f : Nat)
    (students : List StudentRec) (mobile : String) :
    clean_mobile_db ek f students mobile =
      (clean_mobile ek f students mobile, students) := by
  by_cases hm : mobile = ""
  · simp [clean_mobile_db, clean_mobile, hm]
  · by_cases hlen : (digitsOnly mobile).length < 10
    · simp [clean_mobile_db, clean_mobile, hm, hlen]
    · simp [clean_mobile_db, clean_mobile, hm, hlen, scanMobileDB_spec]

theorem clean_step_db_spec (ek : Option String) (f : Nat)
    (students : List StudentRec) (email mobile : Option String) :
    clean_step_db ek f students email mobile =
      (clean_step ek f students email mobile, students) := by
  match email, mobile with
  | none, _ => rfl
  | some e, none => rfl
  | some e, some m =>
    by_cases hg : e ≠ "" ∧ m ≠ ""
    · simp [clean_step_db, clean_step, hg, scanCombinedDB_spec]
    · simp [clean_step_db, clean_step, hg]

theorem runFormDB_spec (ek : Option String) (f : Nat)
    (students : List StudentRec) (email mobile : String) :
    runFormDB ek f students email mobile =
      (runForm ek f students email mobile, students) := by
  simp [runFormDB, runForm, clean_email_db_spec, clean_mobile_db_spec,
    clean_step_db_spec]

/-- C1 (counterexample): with no ENCRYPTION_KEY configured, each call of
get_encryption_key draws fresh key material, so decrypt_data applied to
encrypt_data's blob fails rather than returning the original string. -/
theorem claim_C1_counterexample :
    decrypt_data none 1 (encrypt_data none 0 0 "a") =
      .error "Decryption failed" ∧
    decrypt_data none 1 (encrypt_data none 0 0 "a") ≠ .ok "a" := by
  constructor
  · decide
  · decide

/-- C1 (amended): for every non-empty string s, decrypt_data recovers s from
encrypt_data's blob whenever both calls resolve the same key, in particular
whenever a non-empty ENCRYPTION_KEY is configured, whatever key material the
generator would draw at either call. -/
theorem claim_C1_roundtrip_configured (k s : String) (f1 f2 iv : Nat)
    (hk : k ≠ "") (hs : s ≠ "") :
    decrypt_data (some k) f2 (encrypt_data (some k) f1 iv s) = .ok s := by
  apply decrypt_data_encrypt_data
  simp [get_encryption_key, hk]

theorem claim_C1_witness :
    ("key" : String) ≠ "" ∧ ("alice@example.com" : String) ≠ "" ∧
    decrypt_data (some "key") 5 (encrypt_data (some "key") 3 7
      "alice@example.com") = .ok "alice@example.com" :=
  ⟨by decide, by decide,
   claim_C1_roundtrip_configured "key" "alice@example.com" 3 5 7
     (by decide) (by decide)⟩

/-- C2: hash_for_comparison is deterministic and satisfies the spec's
normalization equalities for email and mobile. -/
theorem claim_C2_hash_comparison :
    (∀ x : String, hash_for_comparison x = hash_for_comparison x) ∧
    hash_for_comparison "a@B.com " = hash_for_comparison "a@b.com" ∧
    hash_for_comparison "(987) 654-3210" = hash_for_comparison "9876543210" :=
  ⟨fun _ => rfl, by decide, by decide⟩

/-- C3: with format validation passed, the form rejects iff the incoming
normalized email hash matches some candidate's, or the incoming digits-only
mobile hash matches some candidate's; and the spec's three literal
scenarios hold for a stored (existing@test.com, 9876543210) record. -/
theorem claim_C3_duplicate_check :
    (∀ (ek : Option String) (f : Nat) (students : List StudentRec)
      (email mobile : String), email ≠ "" → mobile ≠ "" →
      10 ≤ (digitsOnly mobile).length →
      (formRejects (runForm ek f students email mobile) = true ↔
        (∃ st ∈ students, ∃ e, decrypt_data ek f st.email = .ok e ∧
          hash_for_comparison (normEmail e) =
            hash_for_comparison (normEmail email)) ∨
        (∃ st ∈ students, ∃ m, decrypt_data ek f st.mobile = .ok m ∧
          hash_for_comparison (digitsOnly m) =
            hash_for_comparison (digitsOnly mobile)))) ∧
    (runForm (some "k") 0 demoStudents "EXISTING@TEST.COM" "1111111111"
      ).emailError = some emailDupMsg ∧
    (runForm (some "k") 0 demoStudents "new@test.com" "(987) 654-3210"
      ).mobileError = some mobileDupMsg ∧
    formRejects (runForm (some "k") 0 demoStudents "new@test.com"
      "1111111111") = false := by
  refine ⟨?_, by decide, by decide, by decide⟩
  intro ek f students email mobile he hm hlen
  rw [runForm_rejects_iff_scans ek f students email mobile he hm hlen,
    scanEmail_isSome_iff, scanMobile_isSome_iff]

theorem claim_C3_witness :
    (("EXISTING@TEST.COM" : String) ≠ "" ∧ ("1111111111" : String) ≠ "" ∧
      10 ≤ (digitsOnly "1111111111").length) ∧
    formRejects (runForm (some "k") 0 demoStudents "EXISTING@TEST.COM"
      "1111111111") = true :=
  ⟨⟨by decide, by decide, by decide⟩,
   (claim_C3_duplicate_check.1 (some "k") 0 demoStudents "EXISTING@TEST.COM"
       "1111111111" (by decide) (by decide) (by decide)).mpr
     (Or.inl ⟨demoStudent, by decide, "existing@test.com", by decide,
       by decide⟩)⟩

/-- C4 (counterexample): one stored record matches both the incoming email
and mobile, yet the form surfaces the field-level duplicate errors and no
combined-duplicate error: the non-field error is none, so the distinct
combined message is not surfaced to the caller. -/
theorem claim_C4_counterexample :
    decrypt_data (some "k") 0 demoStudent.email = .ok "existing@test.com" ∧
    decrypt_data (some "k") 0 demoStudent.mobile = .ok "9876543210" ∧
    (runForm (some "k") 0 demoStudents "existing@test.com" "9876543210"
      ).nonFieldError = none ∧
    (runForm (some "k") 0 demoStudents "existing@test.com" "9876543210"
      ).emailError = some emailDupMsg ∧
    (runForm (some "k") 0 demoStudents "existing@test.com" "9876543210"
      ).mobileError = some mobileDupMsg := by
  refine ⟨by decide, by decide, by decide, by decide, by decide⟩

/-- C4 (amended): the clean() cross-field step, run on values that are both
present in cleaned_data, raises the distinct combined-duplicate message
whenever one single candidate matches both hashes; in the full pipeline the
field-level errors fire first, so the combined message is never surfaced. -/
theorem claim_C4_combined_step (ek : Option String) (f : Nat)
    (students : List StudentRec) (email mobile : String)
    (he : email ≠ "") (hm : mobile ≠ "")
    (hmatch : ∃ st ∈ students, ∃ e m,
      decrypt_data ek f st.email = .ok e ∧
      decrypt_data ek f st.mobile = .ok m ∧
      hash_for_comparison (normEmail e) =
        hash_for_comparison (normEmail email) ∧
      hash_for_comparison (digitsOnly m) =
        hash_for_comparison (digitsOnly mobile)) :
    clean_step ek f students (some email) (some mobile) =
      some combinedDupMsg ∧
    combinedDupMsg ≠ emailDupMsg ∧ combinedDupMsg ≠ mobileDupMsg := by
  refine ⟨?_, by decide, by decide⟩
  rw [clean_step, if_pos ⟨he, hm⟩]
  have hiss : (scanCombined ek f (hash_for_comparison (normEmail email))
      (hash_for_comparison (digitsOnly mobile)) students).isSome = true :=
    (scanCombined_isSome_iff ek f _ _ students).mpr hmatch
  rcases scanCombined_none_or_dup ek f (hash_for_comparison (normEmail email))
      (hash_for_comparison (digitsOnly mobile)) students with hn | hd
  · rw [hn] at hiss
    cases hiss
  · exact hd

theorem claim_C4_witness :
    clean_step (some "k") 0 demoStudents (some "existing@test.com")
      (some "9876543210") = some combinedDupMsg :=
  (claim_C4_combined_step (some "k") 0 demoStudents "existing@test.com"
    "9876543210" (by decide) (by decide)
    ⟨demoStudent, by decide, "existing@test.com", "9876543210",
      by decide, by decide, by decide, by decide⟩).1

/-- C5: a candidate whose field fails to decrypt is skipped without aborting
the scan: the scans are unchanged by dropping an undecryptable head record;
a decryptable matching record still forces the duplicate rejection
regardless of the other records; and concretely a corrupted blob next to a
valid duplicate still yields the duplicate error. -/
theorem claim_C5_best_effort_skip :
    (∀ (ek : Option String) (f : Nat) (h : String) (st : StudentRec)
      (rest : List StudentRec) (msg : String),
      decrypt_data ek f st.mobile = .error msg →
      scanMobile ek f h (st :: rest) = scanMobile ek f h rest) ∧
    (∀ (ek : Option String) (f : Nat) (h : String) (st : StudentRec)
      (rest : List StudentRec) (msg : String),
      decrypt_data ek f st.email = .error msg →
      scanEmail ek f h (st :: rest) = scanEmail ek f h rest) ∧
    (∀ (ek : Option String) (f : Nat) (students : List StudentRec)
      (mobile : String), mobile ≠ "" → 10 ≤ (digitsOnly mobile).length →
      (∃ st ∈ students, ∃ m, decrypt_data ek f st.mobile = .ok m ∧
        hash_for_comparison (digitsOnly m) =
          hash_for_comparison (digitsOnly mobile)) →
      clean_mobile ek f students mobile = .error mobileDupMsg) ∧
    (∀ (ek : Option String) (f : Nat) (students : List StudentRec)
      (email : String), email ≠ "" →
      (∃ st ∈ students, ∃ e, decrypt_data ek f st.email = .ok e ∧
        hash_for_comparison (normEmail e) =
          hash_for_comparison (normEmail email)) →
      clean_email ek f students email = .error emailDupMsg) ∧
    clean_mobile (some "k") 0 [⟨7, [3], [3]⟩, demoStudent] "9876543210" =
      .error mobileDupMsg := by
  refine ⟨?_, ?_, ?_, ?_, by decide⟩
  · intro ek f h st rest msg hd
    simp [scanMobile, hd]
  · intro ek f h st rest msg hd
    simp [scanEmail, hd]
  · intro ek f students mobile hm hlen hmatch
    have hiss : (scanMobile ek f (hash_for_comparison (digitsOnly mobile))
        students).isSome = true :=
      (scanMobile_isSome_iff ek f _ students).mpr hmatch
    rcases scanMobile_none_or_dup ek f
        (hash_for_comparison (digitsOnly mobile)) students with hn | hd
    · rw [hn] at hiss
      cases hiss
    · rw [clean_mobile, if_neg hm, if_neg (Nat.not_lt.mpr hlen), hd]
  · intro ek f students email he hmatch
    have hiss : (scanEmail ek f (hash_for_comparison (normEmail email))
        students).isSome = true :=
      (scanEmail_isSome_iff ek f _ students).mpr hmatch
    rcases scanEmail_none_or_dup ek f
        (hash_for_comparison (normEmail email)) students with hn | hd
    · rw [hn] at hiss
      cases hiss
    · rw [clean_email, if_neg he, hd]

theorem claim_C5_witness :
    decrypt_data (some "k") 0 (StudentRec.mk 7 [3] [3]).mobile =
      .error "Decryption failed" ∧
    scanMobile (some "k") 0 "x" [⟨7, [3], [3]⟩, demoStudent] =
      scanMobile (some "k") 0 "x" [demoStudent] :=
  ⟨by decide,
   claim_C5_best_effort_skip.1 (some "k") 0 "x" ⟨7, [3], [3]⟩ [demoStudent]
     "Decryption failed" (by decide)⟩

/-- C6 (counterexample): with ENCRYPTION_KEY absent, get_encryption_key
generates fresh key material on every call, so two calls within the same
process run return different keys whenever the generator's draws differ. -/
theorem claim_C6_counterexample :
    (get_encryption_key none 0).fst ≠ (get_encryption_key none 1).fst := by
  decide

/-- C6 (amended): get_encryption_key returns the configured key (without
warning) whenever a non-empty ENCRYPTION_KEY is set, and any two such calls
agree; when the key is absent it returns the freshly generated key material
of that call and emits the operator warning, so agreement across calls is
not guaranteed. -/
theorem claim_C6_key_provider (s : String) (f1 f2 : Nat) (hs : s ≠ "") :
    get_encryption_key (some s) f1 = (strToKey s, false) ∧
    get_encryption_key (some s) f2 = get_encryption_key (some s) f1 ∧
    (∀ f, get_encryption_key none f = (f, true)) := by
  refine ⟨?_, ?_, fun f => rfl⟩
  · simp [get_encryption_key, hs]
  · simp [get_encryption_key, hs]

theorem claim_C6_witness :
    ("configured-key" : String) ≠ "" ∧
    get_encryption_key (some "configured-key") 4 =
      (strToKey "configured-key", false) :=
  ⟨by decide, (claim_C6_key_provider "configured-key" 4 9 (by decide)).1⟩

/-- C7: decrypt_data fails on a blob encrypted under a different key and on
any single-position change of a valid non-empty blob; a non-empty blob that
decrypts successfully is necessarily a well-formed token under the current
key; and a valid blob under the current key decrypts without error. -/
theorem claim_C7_decrypt_failure_modes :
    (∀ (f1 f2 iv : Nat) (s : String), s ≠ "" → f1 ≠ f2 →
      decrypt_data none f2 (encrypt_data none f1 iv s) =
        .error "Decryption failed") ∧
    (∀ (ek : Option String) (f1 f2 iv : Nat) (s : String) (i v : Nat),
      s ≠ "" → i < (encrypt_data ek f1 iv s).length →
      (encrypt_data ek f1 iv s).getD i 0 ≠ v →
      decrypt_data ek f2 ((encrypt_data ek f1 iv s).set i v) =
        .error "Decryption failed") ∧
    (∀ (ek : Option String) (f : Nat) (b : List Nat) (s : String),
      b ≠ [] → decrypt_data ek f b = .ok s →
      ∃ iv pt, b = fernetEncrypt (get_encryption_key ek f).fst iv pt) ∧
    (∀ (ek : Option String) (f iv : Nat) (s : String),
      decrypt_data ek f (encrypt_data ek f iv s) = .ok s) := by
  refine ⟨?_, ?_, ?_, ?_⟩
  · intro f1 f2 iv s hs hf
    apply decrypt_data_wrong_key _ _ _ _ _ _ hs
    simpa [get_encryption_key] using hf
  · intro ek f1 f2 iv s i v hs hi hv
    exact decrypt_data_tampered ek f1 f2 iv s hs i v hi hv
  · intro ek f b s hb h
    exact decrypt_data_ok_shape ek f b s hb h
  · intro ek f iv s
    exact decrypt_data_encrypt_data ek ek f f iv s rfl

theorem claim_C7_witness :
    (decrypt_data none 3 (encrypt_data none 2 0 "b") =
      .error "Decryption failed") ∧
    (decrypt_data (some "k") 0 ((encrypt_data (some "k") 0 0 "hi").set 0 999) =
      .error "Decryption failed") ∧
    (∃ iv pt, encrypt_data (some "k") 0 5 "q" =
      fernetEncrypt (get_encryption_key (some "k") 0).fst iv pt) ∧
    (decrypt_data (some "k") 4 (encrypt_data (some "k") 4 9 "z") = .ok "z") :=
  ⟨claim_C7_decrypt_failure_modes.1 2 3 0 "b" (by decide) (by decide),
   claim_C7_decrypt_failure_modes.2.1 (some "k") 0 0 0 "hi" 0 999 (by decide)
     (by decide) (by decide),
   claim_C7_decrypt_failure_modes.2.2.1 (some "k") 0
     (encrypt_data (some "k") 0 5 "q") "q" (by decide) (by decide),
   claim_C7_decrypt_failure_modes.2.2.2 (some "k") 4 9 "z"⟩

/-- C8: empty input is a sentinel: encrypting the empty string yields the
empty blob and decrypting the empty blob yields the empty string without
raising, whatever the key configuration. -/
theorem claim_C8_empty_sentinel :
    (∀ (ek : Option String) (f iv : Nat), encrypt_data ek f iv "" = []) ∧
    (∀ (ek : Option String) (f : Nat), decrypt_data ek f [] = .ok "") :=
  ⟨fun _ _ _ => rfl, fun _ _ => rfl⟩

/-- C9: the duplicate checks borrow the candidate records: threading the
database through the email, mobile and combined checks hands back exactly
the records that went in, and the verdict agrees with the stateless
pipeline, whether the form accepts or rejects. -/
theorem claim_C9_read_only :
    ∀ (ek : Option String) (f : Nat) (students : List StudentRec)
      (email mobile : String),
      (runFormDB ek f students email mobile).snd = students ∧
      (runFormDB ek f students email mobile).fst =
        runForm ek f students email mobile := by
  intro ek f students email mobile
  rw [runFormDB_spec]
  exact ⟨rfl, rfl⟩

/-- C10: a truthy mobile whose digits-only form has fewer than 10 digits is
rejected with the length validation error whatever the stored records (so
before any duplicate comparison), and a mobile with 10 or more digits never
produces that length error. -/
theorem claim_C10_mobile_length (ek : Option String) (f : Nat)
    (students : List StudentRec) (mobile : String) (hm : mobile ≠ "") :
    ((digitsOnly mobile).length < 10 →
      clean_mobile ek f students mobile = .error mobileLengthMsg) ∧
    (10 ≤ (digitsOnly mobile).length →
      clean_mobile ek f students mobile ≠ .error mobileLengthMsg) := by
  constructor
  · intro hlen
    rw [clean_mobile, if_neg hm, if_pos hlen]
  · intro hlen
    rw [clean_mobile, if_neg hm, if_neg (Nat.not_lt.mpr hlen)]
    rcases scanMobile_none_or_dup ek f
        (hash_for_comparison (digitsOnly mobile)) students with hn | hd
    · rw [hn]
      intro hcon
      cases hcon
    · rw [hd]
      intro hcon
      rw [Except.error.injEq] at hcon
      revert hcon
      decide

theorem claim_C10_witness :
    (("123" : String) ≠ "" ∧ (digitsOnly "123").length < 10 ∧
      clean_mobile (some "k") 0 demoStudents "123" = .error mobileLengthMsg) ∧
    (("1111111111" : String) ≠ "" ∧ 10 ≤ (digitsOnly "1111111111").length ∧
      clean_mobile (some "k") 0 demoStudents "1111111111" ≠
        .error mobileLengthMsg) :=
  ⟨⟨by decide, by decide,
    (claim_C10_mobile_length (some "k") 0 demoStudents "123" (by decide)).1
      (by decide)⟩,
   ⟨by decide, by decide,
    (claim_C10_mobile_length (some "k") 0 demoStudents "1111111111"
      (by decide)).2 (by decide)⟩⟩
